import Mathlib

/-!
# Validating admission controller: memory requests and limits

A shallow embedding of `src/main.go` (package `main`): the schema-checked
decoder `decodeRequest`, the HTTP handler `ServeHTTP` with its container
validation loop and the construction of the admission review response.

Conventions of the embedding

* Go byte slices are lists of naturals (`Bytes`).
* A Go `error` is represented by its message (`err.Error()`), a nil pointer or
  nil error by `none`.
* The Kubernetes API types are records holding the fields the handler reads or
  writes; nested field paths keep their Go names
  (`deploymentRequest.Spec.Template.Spec.Containers`).
* The injected `runtime.Decoder` and the standard-library calls whose results
  the handler branches on (`json.Marshal`, `w.Write`, the `%+v` rendering of
  the request) are parameters: every theorem holds for all of them.
* The effect of `ServeHTTP` on its `http.ResponseWriter` is returned as an
  `Outcome` value; `Outcome.statusCode` reads the status code off it, following
  the documented contract of `http.ResponseWriter`.
-/

namespace AdmissionController

/-! ## Data model -/

/-- Go `[]byte`. -/
abbrev Bytes := List Nat

/-- The type `schema.GroupVersionKind`; Go compares it field by field. -/
structure GroupVersionKind where
  Group : String
  Version : String
  Kind : String
deriving DecidableEq, Repr

/-- The type `metav1.GroupVersionResource`. -/
structure GroupVersionResource where
  Group : String
  Version : String
  Resource : String
deriving DecidableEq, Repr

/-- The type `resource.Quantity`, kept as its textual form (for example "1Gi"). -/
abbrev Quantity := String

/-- The type `corev1.ResourceList`, a Go `map[ResourceName]Quantity`, as an
association list read with `List.lookup`. -/
abbrev ResourceList := List (String × Quantity)

/-- The constant `corev1.ResourceMemory`. -/
def ResourceMemory : String := "memory"

/-- The `ok` of the Go map read `_, ok := m[k]`. -/
def mapHas (m : ResourceList) (k : String) : Bool := (m.lookup k).isSome

/-- The type `corev1.ResourceRequirements`. -/
structure ResourceRequirements where
  Limits : ResourceList
  Requests : ResourceList
deriving DecidableEq, Repr

/-- The type `corev1.Container`. -/
structure Container where
  Name : String
  Resources : ResourceRequirements
deriving DecidableEq, Repr

/-- The type `corev1.PodSpec`. -/
structure PodSpec where
  Containers : List Container
deriving DecidableEq, Repr

/-- The type `corev1.PodTemplateSpec`. -/
structure PodTemplateSpec where
  Spec : PodSpec
deriving DecidableEq, Repr

/-- The type `appsv1.DeploymentSpec`. -/
structure DeploymentSpec where
  Template : PodTemplateSpec
deriving DecidableEq, Repr

/-- The type `appsv1.Deployment`. -/
structure Deployment where
  Spec : DeploymentSpec
deriving DecidableEq, Repr

/-- The type `runtime.RawExtension`: the embedded object, not yet decoded. -/
structure RawExtension where
  Raw : Bytes
deriving DecidableEq, Repr

/-- The type `admission.AdmissionRequest`. -/
structure AdmissionRequest where
  UID : String
  Resource : GroupVersionResource
  Object : RawExtension
deriving DecidableEq, Repr

set_option linter.dupNamespace false in
/-- The type `metav1.Status`. -/
structure Status where
  Status : String
  Message : String
deriving DecidableEq, Repr

/-- The type `admission.AdmissionResponse`; `Result` is a pointer in Go. -/
structure AdmissionResponse where
  UID : String
  Allowed : Bool
  Result : Option Status
deriving DecidableEq, Repr

/-- The type `admission.AdmissionReview`. `TypeMeta` holds the schema identity
that `SetGroupVersionKind` stores and `GroupVersionKind` reads back. -/
structure AdmissionReview where
  TypeMeta : GroupVersionKind
  Request : Option AdmissionRequest
  Response : Option AdmissionResponse
deriving DecidableEq, Repr

/-! ## The injected decoder and the library calls -/

/-- What `schemeDecoder.Decode(data, nil, into)` leaves behind: the state of
`into` after the call, the reported `*GroupVersionKind` and the error. -/
structure DecodeResult (α : Type) where
  into : α
  gvk : Option GroupVersionKind
  err : Option String

/-- The interface `runtime.Decoder`, split by the type of the `into` argument
at the two call sites. -/
structure Decoder where
  intoAdmissionReview : Bytes → DecodeResult AdmissionReview
  intoDeployment : Bytes → DecodeResult Deployment

/-- The struct `admissionValidationHandler`. -/
structure admissionValidationHandler where
  schemeDecoder : Decoder

/-- Library behaviour the handler depends on. -/
structure Stdlib where
  /-- The text of `fmt.Sprintf("%+v", admissionReviewRequest)`. -/
  sprintfPlusV : AdmissionRequest → String
  /-- The call `json.Marshal(admissionReviewResponse)`. -/
  jsonMarshal : AdmissionReview → Except String Bytes
  /-- The error of `w.Write(respBytes)`, `none` when the write succeeds. -/
  write : Bytes → Option String

/-- What a call of `ServeHTTP` does to its `http.ResponseWriter`. -/
inductive Outcome where
  /-- A single `http.Error(w, msg, code)` before any review response exists. -/
  | httpError (msg : String) (code : Nat)
  /-- The review response was built, `json.Marshal` failed on it and
  `http.Error(w, msg, 500)` was sent. -/
  | marshalFailed (review : AdmissionReview) (msg : String)
  /-- The header `Content-Type: application/json` was set and `respBytes`,
  the serialised review, was written. -/
  | written (review : AdmissionReview) (respBytes : Bytes)
  /-- As `written`, but `w.Write` returned an error, followed by
  `http.Error(w, msg, 500)`. -/
  | writeFailed (review : AdmissionReview) (respBytes : Bytes) (msg : String)
deriving DecidableEq, Repr

/-- The review response built by lines 108-122 of `ServeHTTP`, if the call got
that far. -/
def Outcome.review? : Outcome → Option AdmissionReview
  | .httpError _ _ => none
  | .marshalFailed review _ => some review
  | .written review _ => some review
  | .writeFailed review _ _ => some review

/-- The status code of the response. `http.Error(w, msg, code)` on a fresh
writer sends `code`. By the contract of `http.ResponseWriter`, `Write` calls
`WriteHeader(http.StatusOK)` before writing when no header was written yet and
only one header can be written, so a response whose body was handed to `Write`
has status 200, also when that `Write` reports an error and line 133 then calls
`http.Error` with 500. -/
def Outcome.statusCode : Outcome → Nat
  | .httpError _ code => code
  | .marshalFailed _ _ => 500
  | .written _ _ => 200
  | .writeFailed _ _ _ => 200

/-- The payload handed to `w.Write` at line 131, if the call got that far. -/
def Outcome.payload? : Outcome → Option Bytes
  | .httpError _ _ => none
  | .marshalFailed _ _ => none
  | .written _ respBytes => some respBytes
  | .writeFailed _ respBytes _ => some respBytes

/-! ## decodeRequest -/

/-- The message built by `fmt.Sprintf` at lines 36-37 of `decodeRequest`; the
raw string literal has a blank and a line break before "but got". -/
def mismatchMessage (expectedGVK requestGVK : GroupVersionKind) : String :=
  "Expected admission review with group: " ++ expectedGVK.Group ++ " version: " ++
    expectedGVK.Version ++ " kind: " ++ expectedGVK.Kind ++ " \nbut got group: " ++
    requestGVK.Group ++ " version: " ++ requestGVK.Version ++ " kind: " ++ requestGVK.Kind

/-- The method `admissionValidationHandler.decodeRequest`. The first component
is the object `into` after the call, the second the returned pair
`(schema.GroupVersionKind, error)`; on error Go returns the zero identity, which
no caller reads. -/
def decodeRequest {α : Type} (schemeDecoder : Bytes → DecodeResult α) (request : Bytes)
    (expectedGVK : GroupVersionKind) : α × Except String GroupVersionKind :=
  let r := schemeDecoder request
  match r.err with
  | some err => (r.into, .error err)
  | none =>
    match r.gvk with
    | none => (r.into, .error "unable to find schema group, version and kind from request")
    | some requestGVK =>
      if requestGVK ≠ expectedGVK then
        (r.into, .error (mismatchMessage expectedGVK requestGVK))
      else
        (r.into, .ok requestGVK)

/-! ## ServeHTTP -/

/-- The local `expectedAdmissionReviewGVK` of `ServeHTTP`. -/
def expectedAdmissionReviewGVK : GroupVersionKind :=
  { Group := "admission.k8s.io", Version := "v1", Kind := "AdmissionReview" }

/-- The local `deploymentGVR` of `ServeHTTP`. -/
def deploymentGVR : GroupVersionResource :=
  { Group := "apps", Version := "v1", Resource := "deployments" }

/-- The local `expectedDeploymentGVK` of `ServeHTTP`. -/
def expectedDeploymentGVK : GroupVersionKind :=
  { Group := "apps", Version := "v1", Kind := "Deployment" }

/-- The loop at lines 97-107 of `ServeHTTP`: the value of `errorMessage` when
the loop ends, starting from the zero string and leaving at the first `break`. -/
def validationLoop : List Container → String
  | [] => ""
  | container :: rest =>
    if !(mapHas container.Resources.Requests ResourceMemory) then
      "Memory request not specified for container " ++ container.Name
    else if !(mapHas container.Resources.Limits ResourceMemory) then
      "Memory limit not specified for container " ++ container.Name
    else
      validationLoop rest

/-- Lines 108-122 of `ServeHTTP`: the review response for a request uid, the
captured schema identity and the loop's `errorMessage`. -/
def admissionReviewResponse (uid : String) (admissionReviewGVK : GroupVersionKind)
    (errorMessage : String) : AdmissionReview :=
  let response : AdmissionResponse := { UID := uid, Allowed := false, Result := none }
  let response : AdmissionResponse :=
    if errorMessage ≠ "" then
      { response with Allowed := false,
                      Result := some { Status := "Failure", Message := errorMessage } }
    else
      { response with Allowed := true }
  { TypeMeta := admissionReviewGVK, Request := none, Response := some response }

/-- Lines 123-134 of `ServeHTTP`: serialise the review and write it. -/
def writeResponse (lib : Stdlib) (review : AdmissionReview) : Outcome :=
  match lib.jsonMarshal review with
  | .error err => .marshalFailed review err
  | .ok respBytes =>
    match lib.write respBytes with
    | some err => .writeFailed review respBytes err
    | none => .written review respBytes

/-- The method `admissionValidationHandler.ServeHTTP`; `body` is the result of
`io.ReadAll(r.Body)`. -/
def ServeHTTP (avh : admissionValidationHandler) (lib : Stdlib) (body : Except String Bytes) :
    Outcome :=
  match body with
  | .error err => .httpError ("error " ++ err ++ " reading request body") 500
  | .ok requestBody =>
    match decodeRequest avh.schemeDecoder.intoAdmissionReview requestBody
        expectedAdmissionReviewGVK with
    | (_, .error err) => .httpError err 500
    | (admissionReview, .ok admissionReviewGVK) =>
      match admissionReview.Request with
      | none => .httpError "Expected admission review request but did not get one" 500
      | some admissionReviewRequest =>
        if admissionReviewRequest.Resource ≠ deploymentGVR then
          .httpError ("Expected apps/v1/deployments resource but got " ++
            lib.sprintfPlusV admissionReviewRequest) 400
        else
          match decodeRequest avh.schemeDecoder.intoDeployment
              admissionReviewRequest.Object.Raw expectedDeploymentGVK with
          | (_, .error err) => .httpError err 500
          | (deploymentRequest, .ok _) =>
            let errorMessage :=
              validationLoop deploymentRequest.Spec.Template.Spec.Containers
            writeResponse lib
              (admissionReviewResponse admissionReviewRequest.UID admissionReviewGVK errorMessage)

/-- The first test of the loop body passes: the container's requests have a
"memory" entry. -/
def hasMemoryRequest (container : Container) : Bool :=
  mapHas container.Resources.Requests ResourceMemory

/-- The second test of the loop body passes: the container's limits have a
"memory" entry. -/
def hasMemoryLimit (container : Container) : Bool :=
  mapHas container.Resources.Limits ResourceMemory

/-- The review response of a denial with the given message. -/
def deniedReview (uid : String) (gvk : GroupVersionKind) (message : String) : AdmissionReview :=
  { TypeMeta := gvk, Request := none,
    Response := some { UID := uid, Allowed := false,
                       Result := some { Status := "Failure", Message := message } } }

/-- The review response of an admission. -/
def allowedReview (uid : String) (gvk : GroupVersionKind) : AdmissionReview :=
  { TypeMeta := gvk, Request := none,
    Response := some { UID := uid, Allowed := true, Result := none } }

/-- The call of `ServeHTTP` on `body` reaches the validation loop: the body was
read, the outer envelope decoded with the admission review identity
`admissionReviewGVK`, it carries the request `req` whose resource is
apps/v1/deployments, and the embedded object decoded as the deployment `dep`. -/
def ReachesValidation (avh : admissionValidationHandler) (body : Except String Bytes)
    (admissionReviewGVK : GroupVersionKind) (req : AdmissionRequest) (dep : Deployment) : Prop :=
  ∃ requestBody admissionReview deploymentGVK,
    body = .ok requestBody ∧
    decodeRequest avh.schemeDecoder.intoAdmissionReview requestBody expectedAdmissionReviewGVK
      = (admissionReview, .ok admissionReviewGVK) ∧
    admissionReview.Request = some req ∧
    req.Resource = deploymentGVR ∧
    decodeRequest avh.schemeDecoder.intoDeployment req.Object.Raw expectedDeploymentGVK
      = (dep, .ok deploymentGVK)

/-- The handler `avh` with the decoding of deployments replaced by `other`. -/
def withDeploymentDecoder (avh : admissionValidationHandler)
    (other : Bytes → DecodeResult Deployment) : admissionValidationHandler :=
  { schemeDecoder :=
      { intoAdmissionReview := avh.schemeDecoder.intoAdmissionReview, intoDeployment := other } }

/-- The text `value` occurs in the message `msg`. -/
def mentions (msg value : String) : Prop := value.data <:+: msg.data

instance (msg value : String) : Decidable (mentions msg value) := by
  unfold mentions
  infer_instance

/-! ## Sample inputs -/

/-- A decoder that ignores the payload: the envelope always decodes to `review`
and the embedded object to `dep`, each with the identity expected for it. -/
def constDecoder (review : AdmissionReview) (dep : Deployment) : Decoder where
  intoAdmissionReview := fun _ =>
    { into := review, gvk := some expectedAdmissionReviewGVK, err := none }
  intoDeployment := fun _ =>
    { into := dep, gvk := some expectedDeploymentGVK, err := none }

/-- A library whose serialiser returns the empty payload and whose writes
succeed; the request is rendered by its uid. -/
def okLib : Stdlib where
  sprintfPlusV := fun req => req.UID
  jsonMarshal := fun _ => .ok []
  write := fun _ => none

/-- A byte slice as `%v` prints it: decimal numbers between brackets. -/
def renderBytes (b : Bytes) : String :=
  "[" ++ " ".intercalate (b.map Nat.repr) ++ "]"

/-- A rendering of a request in the manner of Go's `%+v` on a pointer to a
struct: every field under its name, the raw bytes of the embedded object
included. -/
def renderRequest (req : AdmissionRequest) : String :=
  "&\x7bUID:" ++ req.UID ++ " Resource:\x7bGroup:" ++ req.Resource.Group ++ " Version:" ++
    req.Resource.Version ++ " Resource:" ++ req.Resource.Resource ++ "\x7d Object:\x7bRaw:" ++
    renderBytes req.Object.Raw ++ "\x7d\x7d"

/-- A library as `okLib` that renders requests with `renderRequest`. -/
def renderLib : Stdlib where
  sprintfPlusV := renderRequest
  jsonMarshal := fun _ => .ok []
  write := fun _ => none

/-- The resource triple of pods in the apps/v1 group version. -/
def podsGVR : GroupVersionResource :=
  { Group := "apps", Version := "v1", Resource := "pods" }

/-- A request for pods with uid "u1" and the given embedded object. -/
def podsRequest (raw : Bytes) : AdmissionRequest :=
  { UID := "u1", Resource := podsGVR, Object := { Raw := raw } }

/-- A decoder for which every payload is an admission review of a request for
pods whose embedded object is the payload itself; the embedded object decodes
to a deployment without containers. -/
def podsDecoder : Decoder where
  intoAdmissionReview := fun payload =>
    { into := { TypeMeta := expectedAdmissionReviewGVK, Request := some (podsRequest payload),
                Response := none },
      gvk := some expectedAdmissionReviewGVK, err := none }
  intoDeployment := fun _ =>
    { into := { Spec := { Template := { Spec := { Containers := [] } } } },
      gvk := some expectedDeploymentGVK, err := none }

/-- The identity of an envelope that declares kind "Pod". -/
def podGVK : GroupVersionKind :=
  { Group := "admission.k8s.io", Version := "v1", Kind := "Pod" }

/-- The value of `new(admission.AdmissionReview)`, untouched by the decoder. -/
def zeroReview : AdmissionReview :=
  { TypeMeta := { Group := "", Version := "", Kind := "" }, Request := none, Response := none }

/-- The error of a decoder whose scheme does not know the kind "Pod". -/
def podNotRegistered : String :=
  "no kind Pod is registered for version admission.k8s.io/v1"

/-- A decoder call on an envelope of kind "Pod" by a decoder whose scheme holds
the admission types only: it reports the identity it read, `podGVK`, together
with an error. -/
def failingPodDecoder : Bytes → DecodeResult AdmissionReview :=
  fun _ => { into := zeroReview, gvk := some podGVK, err := some podNotRegistered }

/-- The identity of an envelope that declares kind "ListOptions", a kind that
the admission scheme registers next to "AdmissionReview". -/
def listOptionsGVK : GroupVersionKind :=
  { Group := "admission.k8s.io", Version := "v1", Kind := "ListOptions" }

/-- A decoder call that succeeds on an envelope of kind "ListOptions": it reports
`listOptionsGVK` without error and leaves `into` as it was. -/
def listOptionsDecoder : Bytes → DecodeResult AdmissionReview :=
  fun _ => { into := zeroReview, gvk := some listOptionsGVK, err := none }

/-- An inbound envelope for a deployment with uid "u1". -/
def sampleReview : AdmissionReview :=
  { TypeMeta := expectedAdmissionReviewGVK,
    Request := some { UID := "u1", Resource := deploymentGVR, Object := { Raw := [] } },
    Response := none }

/-- The request carried by `sampleReview`. -/
def sampleRequest : AdmissionRequest :=
  { UID := "u1", Resource := deploymentGVR, Object := { Raw := [] } }

/-- A container with the given name, requests and limits. -/
def mkContainer (name : String) (requests limits : ResourceList) : Container :=
  { Name := name, Resources := { Limits := limits, Requests := requests } }

/-- A deployment with the given containers. -/
def mkDeployment (containers : List Container) : Deployment :=
  { Spec := { Template := { Spec := { Containers := containers } } } }

/-- Container "a" has a memory request but no memory limit, container "b" has
neither. -/
def limitThenRequest : List Container :=
  [mkContainer "a" [("memory", "1Gi")] [], mkContainer "b" [] []]

/-- The second scenario of the specification followed by a complete container. -/
def limitMissingFirst : List Container :=
  [mkContainer "a" [("memory", "1Gi")] [],
   mkContainer "b" [("memory", "1Gi")] [("memory", "1Gi")]]

/-- The first scenario of the specification. -/
def requestMissingSecond : List Container :=
  [mkContainer "a" [("memory", "1Gi")] [("memory", "1Gi")], mkContainer "b" [] []]

/-- A handler whose decoder yields `sampleReview` and the given containers. -/
def sampleHandler (containers : List Container) : admissionValidationHandler :=
  { schemeDecoder := constDecoder sampleReview (mkDeployment containers) }

/-- What the loop body reads of a container: its name and whether "memory" is
a key of its requests and of its limits. -/
def memoryProfile (container : Container) : String × Bool × Bool :=
  (container.Name, hasMemoryRequest container, hasMemoryLimit container)

/-- A single container with the empty name and no resources. -/
def namelessContainers : List Container :=
  [mkContainer "" [] []]

/-- Container "a" requests zero memory, container "b" is complete and also
declares cpu; "a" has a cpu limit but no memory limit. -/
def zeroQuantities : List Container :=
  [mkContainer "a" [("memory", "0")] [("cpu", "1")],
   mkContainer "b" [("cpu", "2"), ("memory", "1Gi")] [("memory", "2Gi")]]

/-- As `zeroQuantities` in names and in the presence of "memory", with other
quantities and other extra entries. -/
def otherQuantities : List Container :=
  [mkContainer "a" [("memory", "64Mi"), ("cpu", "500m")] [],
   mkContainer "b" [("memory", "0")] [("memory", "0"), ("ephemeral-storage", "1Gi")]]

/-- A handler whose decoder answers every envelope as `failingPodDecoder`. -/
def failingPodHandler : admissionValidationHandler :=
  { schemeDecoder :=
      { intoAdmissionReview := failingPodDecoder
        intoDeployment := fun _ =>
          { into := mkDeployment [], gvk := some expectedDeploymentGVK, err := none } } }

/-- A handler whose decoder answers every envelope as `listOptionsDecoder`. -/
def listOptionsHandler : admissionValidationHandler :=
  { schemeDecoder :=
      { intoAdmissionReview := listOptionsDecoder
        intoDeployment := fun _ =>
          { into := mkDeployment [], gvk := some expectedDeploymentGVK, err := none } } }

/-- An envelope with the admission review identity and no request. -/
def emptyReview : AdmissionReview :=
  { TypeMeta := expectedAdmissionReviewGVK, Request := none, Response := none }

/-- A library whose serialiser succeeds and whose writes fail. -/
def brokenPipeLib : Stdlib where
  sprintfPlusV := fun req => req.UID
  jsonMarshal := fun _ => .ok [1]
  write := fun _ => some "broken pipe"

/-! ## Basic facts -/

theorem review?_writeResponse (lib : Stdlib) (review : AdmissionReview) :
    (writeResponse lib review).review? = some review := by
  unfold writeResponse
  cases lib.jsonMarshal review with
  | error e => rfl
  | ok b =>
    cases hw : lib.write b with
    | none => simp only [hw, Outcome.review?]
    | some e => simp only [hw, Outcome.review?]

theorem ServeHTTP_of_reaches {avh : admissionValidationHandler} {body : Except String Bytes}
    {gvk : GroupVersionKind} {req : AdmissionRequest} {dep : Deployment} (lib : Stdlib)
    (h : ReachesValidation avh body gvk req dep) :
    ServeHTTP avh lib body = writeResponse lib
      (admissionReviewResponse req.UID gvk
        (validationLoop dep.Spec.Template.Spec.Containers)) := by
  obtain ⟨requestBody, review, g, hb, h1, h2, h3, h4⟩ := h
  subst hb
  simp only [ServeHTTP, h1, h2, h3, h4, ne_eq, not_true_eq_false, if_false]

theorem review?_of_reaches {avh : admissionValidationHandler} {body : Except String Bytes}
    {gvk : GroupVersionKind} {req : AdmissionRequest} {dep : Deployment} (lib : Stdlib)
    (h : ReachesValidation avh body gvk req dep) :
    (ServeHTTP avh lib body).review? = some
      (admissionReviewResponse req.UID gvk
        (validationLoop dep.Spec.Template.Spec.Containers)) := by
  rw [ServeHTTP_of_reaches lib h, review?_writeResponse]

theorem request_message_ne_empty (name : String) :
    "Memory request not specified for container " ++ name ≠ "" := by
  intro h
  have hlen := congrArg String.length h
  rw [String.length_append] at hlen
  have hpos : 0 < ("Memory request not specified for container ").length := by decide
  have hzero : ("" : String).length = 0 := rfl
  omega

theorem limit_message_ne_empty (name : String) :
    "Memory limit not specified for container " ++ name ≠ "" := by
  intro h
  have hlen := congrArg String.length h
  rw [String.length_append] at hlen
  have hpos : 0 < ("Memory limit not specified for container ").length := by decide
  have hzero : ("" : String).length = 0 := rfl
  omega

theorem admissionReviewResponse_denied (uid : String) (gvk : GroupVersionKind)
    {message : String} (h : message ≠ "") :
    admissionReviewResponse uid gvk message = deniedReview uid gvk message := by
  simp [admissionReviewResponse, deniedReview, h]

theorem admissionReviewResponse_allowed (uid : String) (gvk : GroupVersionKind) :
    admissionReviewResponse uid gvk "" = allowedReview uid gvk := by
  simp [admissionReviewResponse, allowedReview]

/-- The loop passes over a container that has both entries. -/
theorem validationLoop_cons_ok (c : Container) (rest : List Container)
    (hr : hasMemoryRequest c = true) (hl : hasMemoryLimit c = true) :
    validationLoop (c :: rest) = validationLoop rest := by
  simp only [hasMemoryRequest, hasMemoryLimit] at hr hl
  simp [validationLoop, hr, hl]

theorem validationLoop_cons_noRequest (c : Container) (rest : List Container)
    (hr : hasMemoryRequest c = false) :
    validationLoop (c :: rest) = "Memory request not specified for container " ++ c.Name := by
  simp only [hasMemoryRequest] at hr
  simp [validationLoop, hr]

theorem validationLoop_cons_noLimit (c : Container) (rest : List Container)
    (hr : hasMemoryRequest c = true) (hl : hasMemoryLimit c = false) :
    validationLoop (c :: rest) = "Memory limit not specified for container " ++ c.Name := by
  simp only [hasMemoryRequest, hasMemoryLimit] at hr hl
  simp [validationLoop, hr, hl]

/-- The loop reaches container `i` when every container before it has both
entries. -/
theorem validationLoop_skip (cs : List Container) (i : Nat) (c : Container)
    (hi : cs[i]? = some c)
    (hpre : ∀ (j : Nat) (d : Container), j < i → cs[j]? = some d →
      hasMemoryRequest d = true ∧ hasMemoryLimit d = true) :
    validationLoop cs = validationLoop (c :: cs.drop (i + 1)) := by
  induction cs generalizing i with
  | nil => simp at hi
  | cons x xs ih =>
    cases i with
    | zero =>
      simp at hi
      subst hi
      simp
    | succ n =>
      have hx := hpre 0 x (Nat.succ_pos n) (by simp)
      rw [validationLoop_cons_ok x xs hx.1 hx.2]
      simp only [List.getElem?_cons_succ] at hi
      rw [ih n hi (fun j d hj hd => hpre (j + 1) d (Nat.succ_lt_succ hj) (by simpa using hd))]
      simp

/-- The message the loop leaves when it stops at an offending container. -/
theorem validationLoop_cons_offender (c : Container) (rest : List Container)
    (h : hasMemoryRequest c = false ∨ hasMemoryLimit c = false) :
    validationLoop (c :: rest) =
      if hasMemoryRequest c = false then
        "Memory request not specified for container " ++ c.Name
      else
        "Memory limit not specified for container " ++ c.Name := by
  cases hr : hasMemoryRequest c with
  | false => simpa using validationLoop_cons_noRequest c rest hr
  | true =>
    have hl : hasMemoryLimit c = false := by
      rcases h with h | h
      · rw [hr] at h; cases h
      · exact h
    simpa using validationLoop_cons_noLimit c rest hr hl

/-- A list with an offending container has a first one. -/
theorem exists_first_offender (cs : List Container)
    (h : ∃ d ∈ cs, hasMemoryRequest d = false ∨ hasMemoryLimit d = false) :
    ∃ (k : Nat) (c : Container), cs[k]? = some c ∧
      (hasMemoryRequest c = false ∨ hasMemoryLimit c = false) ∧
      ∀ (j : Nat) (d : Container), j < k → cs[j]? = some d →
        hasMemoryRequest d = true ∧ hasMemoryLimit d = true := by
  induction cs with
  | nil => simp at h
  | cons x xs ih =>
    by_cases hx : hasMemoryRequest x = false ∨ hasMemoryLimit x = false
    · refine ⟨0, x, by simp, hx, ?_⟩
      intro j d hj _
      exact absurd hj (Nat.not_lt_zero j)
    · have hx2 : hasMemoryRequest x = true ∧ hasMemoryLimit x = true := by
        simpa [not_or] using hx
      have hxs : ∃ d ∈ xs, hasMemoryRequest d = false ∨ hasMemoryLimit d = false := by
        obtain ⟨d, hd, hoff⟩ := h
        rcases List.mem_cons.mp hd with hd | hd
        · subst hd; exact absurd hoff hx
        · exact ⟨d, hd, hoff⟩
      obtain ⟨k, c, hk, hoff, hleast⟩ := ih hxs
      refine ⟨k + 1, c, by simpa using hk, hoff, ?_⟩
      intro j d hj hd
      cases j with
      | zero =>
        simp at hd
        subst hd
        exact hx2
      | succ n => exact hleast n d (Nat.lt_of_succ_lt_succ hj) (by simpa using hd)

/-- A call that built a review response reached the validation loop, and the
review is the one built from the loop's message. -/
theorem reaches_of_review? {avh : admissionValidationHandler} {lib : Stdlib}
    {body : Except String Bytes} {rv : AdmissionReview}
    (h : (ServeHTTP avh lib body).review? = some rv) :
    ∃ (gvk : GroupVersionKind) (req : AdmissionRequest) (dep : Deployment),
      ReachesValidation avh body gvk req dep ∧
      rv = admissionReviewResponse req.UID gvk
        (validationLoop dep.Spec.Template.Spec.Containers) := by
  cases body with
  | error e => simp [ServeHTTP, Outcome.review?] at h
  | ok requestBody =>
    rcases h1 : decodeRequest avh.schemeDecoder.intoAdmissionReview requestBody
      expectedAdmissionReviewGVK with ⟨review, r1⟩
    cases r1 with
    | error e => simp [ServeHTTP, h1, Outcome.review?] at h
    | ok gvk =>
      cases h2 : review.Request with
      | none => simp [ServeHTTP, h1, h2, Outcome.review?] at h
      | some req =>
        by_cases h3 : req.Resource = deploymentGVR
        · rcases h4 : decodeRequest avh.schemeDecoder.intoDeployment req.Object.Raw
            expectedDeploymentGVK with ⟨dep, r2⟩
          cases r2 with
          | error e => simp [ServeHTTP, h1, h2, h3, h4, Outcome.review?] at h
          | ok g =>
            have hr : ReachesValidation avh (.ok requestBody) gvk req dep :=
              ⟨_, _, _, rfl, h1, h2, h3, h4⟩
            rw [review?_of_reaches lib hr] at h
            exact ⟨gvk, req, dep, hr, (Option.some.inj h).symm⟩
        · simp [ServeHTTP, h1, h2, h3, Outcome.review?] at h

/-- The decoder failed: `decodeRequest` returns its error. -/
theorem decodeRequest_of_err {α : Type} (schemeDecoder : Bytes → DecodeResult α)
    (request : Bytes) (expectedGVK : GroupVersionKind) {e : String}
    (herr : (schemeDecoder request).err = some e) :
    decodeRequest schemeDecoder request expectedGVK =
      ((schemeDecoder request).into, .error e) := by
  simp only [decodeRequest, herr]

/-- The decoder reported no identity. -/
theorem decodeRequest_of_nil {α : Type} (schemeDecoder : Bytes → DecodeResult α)
    (request : Bytes) (expectedGVK : GroupVersionKind)
    (herr : (schemeDecoder request).err = none) (hgvk : (schemeDecoder request).gvk = none) :
    decodeRequest schemeDecoder request expectedGVK =
      ((schemeDecoder request).into,
        .error "unable to find schema group, version and kind from request") := by
  simp only [decodeRequest, herr, hgvk]

/-- The decoder reported an identity other than the expected one. -/
theorem decodeRequest_of_ne {α : Type} (schemeDecoder : Bytes → DecodeResult α)
    (request : Bytes) (expectedGVK : GroupVersionKind) {g : GroupVersionKind}
    (herr : (schemeDecoder request).err = none) (hgvk : (schemeDecoder request).gvk = some g)
    (hne : g ≠ expectedGVK) :
    decodeRequest schemeDecoder request expectedGVK =
      ((schemeDecoder request).into, .error (mismatchMessage expectedGVK g)) := by
  simp only [decodeRequest, herr, hgvk, hne, ne_eq, not_false_eq_true, if_true]

/-- The decoder reported the expected identity. -/
theorem decodeRequest_of_eq {α : Type} (schemeDecoder : Bytes → DecodeResult α)
    (request : Bytes) (expectedGVK : GroupVersionKind)
    (herr : (schemeDecoder request).err = none)
    (hgvk : (schemeDecoder request).gvk = some expectedGVK) :
    decodeRequest schemeDecoder request expectedGVK =
      ((schemeDecoder request).into, .ok expectedGVK) := by
  simp only [decodeRequest, herr, hgvk, ne_eq, not_true_eq_false, if_false]

/-- The object returned by `decodeRequest` is the decoder's `into`. -/
theorem decodeRequest_fst {α : Type} (schemeDecoder : Bytes → DecodeResult α)
    (request : Bytes) (expectedGVK : GroupVersionKind) :
    (decodeRequest schemeDecoder request expectedGVK).1 = (schemeDecoder request).into := by
  cases herr : (schemeDecoder request).err with
  | some e => rw [decodeRequest_of_err _ _ _ herr]
  | none =>
    cases hgvk : (schemeDecoder request).gvk with
    | none => rw [decodeRequest_of_nil _ _ _ herr hgvk]
    | some g =>
      by_cases hg : g = expectedGVK
      · subst hg
        rw [decodeRequest_of_eq _ _ _ herr hgvk]
      · rw [decodeRequest_of_ne _ _ _ herr hgvk hg]

/-- Success of `decodeRequest` in terms of the decoder's results. -/
theorem decodeRequest_ok_iff {α : Type} (schemeDecoder : Bytes → DecodeResult α)
    (request : Bytes) (expectedGVK g : GroupVersionKind) :
    (decodeRequest schemeDecoder request expectedGVK).2 = .ok g ↔
      (schemeDecoder request).err = none ∧ (schemeDecoder request).gvk = some g ∧
        g = expectedGVK := by
  cases herr : (schemeDecoder request).err with
  | some e =>
    rw [decodeRequest_of_err _ _ _ herr]
    simp
  | none =>
    cases hgvk : (schemeDecoder request).gvk with
    | none =>
      rw [decodeRequest_of_nil _ _ _ herr hgvk]
      simp
    | some g2 =>
      by_cases hg : g2 = expectedGVK
      · subst hg
        rw [decodeRequest_of_eq _ _ _ herr hgvk]
        constructor
        · intro h
          have hgg : g2 = g := by simpa using h
          subst hgg
          exact ⟨rfl, rfl, rfl⟩
        · rintro ⟨_, _, h3⟩
          rw [h3]
      · rw [decodeRequest_of_ne _ _ _ herr hgvk hg]
        constructor
        · intro h
          simp at h
        · rintro ⟨_, h2, h3⟩
          have hgg : g2 = g := by simpa using h2
          exact absurd (hgg.trans h3) hg

theorem mentions_append_self (a v : String) : mentions (a ++ v) v := by
  unfold mentions
  rw [String.data_append]
  exact (List.suffix_append a.data v.data).isInfix

theorem mentions_append_left {m v : String} (b : String) (h : mentions m v) :
    mentions (m ++ b) v := by
  unfold mentions at *
  rw [String.data_append]
  exact List.IsInfix.trans h ⟨[], b.data, by simp⟩

/-! ## The validation loop (C1, C2, C3) -/

/-- C1, as stated, fails: in `limitThenRequest` container 1 ("b") is the first
container without a memory request, container 0 ("a") having one, yet the
response cites the missing limit of "a" and not the missing request of "b". -/
theorem C1_counterexample_limit_of_earlier_container_wins :
    ReachesValidation (sampleHandler limitThenRequest) (.ok []) expectedAdmissionReviewGVK
        sampleRequest (mkDeployment limitThenRequest) ∧
      limitThenRequest[0]? = some (mkContainer "a" [("memory", "1Gi")] []) ∧
      hasMemoryRequest (mkContainer "a" [("memory", "1Gi")] []) = true ∧
      limitThenRequest[1]? = some (mkContainer "b" [] []) ∧
      hasMemoryRequest (mkContainer "b" [] []) = false ∧
      (ServeHTTP (sampleHandler limitThenRequest) okLib (.ok [])).review? =
        some (deniedReview "u1" expectedAdmissionReviewGVK
          "Memory limit not specified for container a") ∧
      (ServeHTTP (sampleHandler limitThenRequest) okLib (.ok [])).review? ≠
        some (deniedReview "u1" expectedAdmissionReviewGVK
          "Memory request not specified for container b") := by
  refine ⟨⟨[], sampleReview, expectedDeploymentGVK, rfl, rfl, rfl, rfl, rfl⟩, ?_⟩
  decide

/-- C1, amended: when the call reaches the validation loop, container `i` is
the first container whose requests lack a "memory" entry and every container
before it has a "memory" limit, the review response is the denial with message
"Memory request not specified for container " followed by the name of container
`i`, whatever the containers after `i` declare. -/
theorem C1_first_missing_request_is_reported (avh : admissionValidationHandler) (lib : Stdlib)
    (body : Except String Bytes) (gvk : GroupVersionKind) (req : AdmissionRequest)
    (dep : Deployment) (i : Nat) (c : Container)
    (hreach : ReachesValidation avh body gvk req dep)
    (hi : dep.Spec.Template.Spec.Containers[i]? = some c)
    (hmiss : hasMemoryRequest c = false)
    (hfirst : ∀ (j : Nat) (d : Container), j < i → dep.Spec.Template.Spec.Containers[j]? = some d →
      hasMemoryRequest d = true)
    (hlimits : ∀ (j : Nat) (d : Container), j < i → dep.Spec.Template.Spec.Containers[j]? = some d →
      hasMemoryLimit d = true) :
    (ServeHTTP avh lib body).review? =
      some (deniedReview req.UID gvk
        ("Memory request not specified for container " ++ c.Name)) := by
  rw [review?_of_reaches lib hreach,
    validationLoop_skip _ i c hi (fun j d hj hd => ⟨hfirst j d hj hd, hlimits j d hj hd⟩),
    validationLoop_cons_noRequest c _ hmiss,
    admissionReviewResponse_denied _ _ (request_message_ne_empty c.Name)]

/-- C1, amended, on the first scenario of the specification: container "a" is
complete, container "b" has neither entry, and the denial cites the request
of "b". -/
theorem C1_first_missing_request_is_reported_witness :
    (ServeHTTP (sampleHandler requestMissingSecond) okLib (.ok [])).review? =
      some (deniedReview "u1" expectedAdmissionReviewGVK
        "Memory request not specified for container b") :=
  C1_first_missing_request_is_reported (sampleHandler requestMissingSecond) okLib (.ok [])
    expectedAdmissionReviewGVK sampleRequest (mkDeployment requestMissingSecond) 1
    (mkContainer "b" [] [])
    ⟨[], sampleReview, expectedDeploymentGVK, rfl, rfl, rfl, rfl, rfl⟩ rfl rfl
    (by
      intro j d hj hd
      have hj0 : j = 0 := by omega
      subst hj0
      cases hd
      decide)
    (by
      intro j d hj hd
      have hj0 : j = 0 := by omega
      subst hj0
      cases hd
      decide)

/-- C2: when the call reaches the validation loop, every container has a
"memory" entry in its requests and container `j` is the first whose limits lack
a "memory" entry, the review response is the denial with message
"Memory limit not specified for container " followed by the name of
container `j`. -/
theorem C2_first_missing_limit_is_reported (avh : admissionValidationHandler) (lib : Stdlib)
    (body : Except String Bytes) (gvk : GroupVersionKind) (req : AdmissionRequest)
    (dep : Deployment) (j : Nat) (c : Container)
    (hreach : ReachesValidation avh body gvk req dep)
    (hrequests : ∀ d ∈ dep.Spec.Template.Spec.Containers, hasMemoryRequest d = true)
    (hj : dep.Spec.Template.Spec.Containers[j]? = some c)
    (hmiss : hasMemoryLimit c = false)
    (hfirst : ∀ (k : Nat) (d : Container), k < j →
      dep.Spec.Template.Spec.Containers[k]? = some d → hasMemoryLimit d = true) :
    (ServeHTTP avh lib body).review? =
      some (deniedReview req.UID gvk
        ("Memory limit not specified for container " ++ c.Name)) := by
  have hmem : ∀ (k : Nat) (d : Container),
      dep.Spec.Template.Spec.Containers[k]? = some d →
      d ∈ dep.Spec.Template.Spec.Containers := by
    intro k d hd
    exact List.getElem?_mem hd
  rw [review?_of_reaches lib hreach,
    validationLoop_skip _ j c hj
      (fun k d hk hd => ⟨hrequests d (hmem k d hd), hfirst k d hk hd⟩),
    validationLoop_cons_noLimit c _ (hrequests c (hmem j c hj)) hmiss,
    admissionReviewResponse_denied _ _ (limit_message_ne_empty c.Name)]

/-- C2 on `limitMissingFirst`: both containers have a memory request, "a" lacks
the limit, and the denial cites the limit of "a". -/
theorem C2_first_missing_limit_is_reported_witness :
    (ServeHTTP (sampleHandler limitMissingFirst) okLib (.ok [])).review? =
      some (deniedReview "u1" expectedAdmissionReviewGVK
        "Memory limit not specified for container a") :=
  C2_first_missing_limit_is_reported (sampleHandler limitMissingFirst) okLib (.ok [])
    expectedAdmissionReviewGVK sampleRequest (mkDeployment limitMissingFirst) 0
    (mkContainer "a" [("memory", "1Gi")] [])
    ⟨[], sampleReview, expectedDeploymentGVK, rfl, rfl, rfl, rfl, rfl⟩
    (by decide) rfl rfl
    (fun k _ hk _ => absurd hk (Nat.not_lt_zero k))

/-- C3: when the call reaches the validation loop and some container lacks a
memory request or a memory limit, there is a container of least index `k` that
lacks either entry, and the review response is the denial carrying one message,
about that container: the request message if its request is missing, the limit
message otherwise. The containers after index `k` have no influence: replacing
them by any others leaves the loop's message unchanged. -/
theorem C3_only_first_offender_is_reported (avh : admissionValidationHandler) (lib : Stdlib)
    (body : Except String Bytes) (gvk : GroupVersionKind) (req : AdmissionRequest)
    (dep : Deployment)
    (hreach : ReachesValidation avh body gvk req dep)
    (hsome : ∃ d ∈ dep.Spec.Template.Spec.Containers,
      hasMemoryRequest d = false ∨ hasMemoryLimit d = false) :
    ∃ (k : Nat) (c : Container),
      dep.Spec.Template.Spec.Containers[k]? = some c ∧
      (hasMemoryRequest c = false ∨ hasMemoryLimit c = false) ∧
      (∀ (j : Nat) (d : Container), j < k →
        dep.Spec.Template.Spec.Containers[j]? = some d →
        hasMemoryRequest d = true ∧ hasMemoryLimit d = true) ∧
      (ServeHTTP avh lib body).review? =
        some (deniedReview req.UID gvk
          (if hasMemoryRequest c = false then
            "Memory request not specified for container " ++ c.Name
          else
            "Memory limit not specified for container " ++ c.Name)) ∧
      ∀ later : List Container,
        validationLoop (dep.Spec.Template.Spec.Containers.take (k + 1) ++ later) =
          validationLoop dep.Spec.Template.Spec.Containers := by
  obtain ⟨k, c, hk, hoff, hleast⟩ := exists_first_offender _ hsome
  have hlt : k < dep.Spec.Template.Spec.Containers.length := by
    rcases Nat.lt_or_ge k dep.Spec.Template.Spec.Containers.length with h | h
    · exact h
    · rw [List.getElem?_eq_none h] at hk; cases hk
  refine ⟨k, c, hk, hoff, hleast, ?_, ?_⟩
  · rw [review?_of_reaches lib hreach, validationLoop_skip _ k c hk hleast,
      validationLoop_cons_offender c _ hoff]
    congr 1
    apply admissionReviewResponse_denied
    split
    · exact request_message_ne_empty c.Name
    · exact limit_message_ne_empty c.Name
  · intro later
    have htake : ∀ (j : Nat), j ≤ k →
        (dep.Spec.Template.Spec.Containers.take (k + 1) ++ later)[j]? =
          dep.Spec.Template.Spec.Containers[j]? := by
      intro j hj
      rw [List.getElem?_append_left (by simp; omega), List.getElem?_take_of_lt (by omega)]
    rw [validationLoop_skip _ k c ((htake k (Nat.le_refl k)).trans hk)
        (fun j d hj hd => hleast j d hj ((htake j (Nat.le_of_lt hj)).symm.trans hd)),
      validationLoop_skip dep.Spec.Template.Spec.Containers k c hk hleast,
      validationLoop_cons_offender c _ hoff, validationLoop_cons_offender c _ hoff]

/-- C3 on `limitThenRequest`: "a" lacks only the limit, "b" lacks both; the one
message reported is about "a". -/
theorem C3_only_first_offender_is_reported_witness :
    ∃ (k : Nat) (c : Container),
      limitThenRequest[k]? = some c ∧
      (hasMemoryRequest c = false ∨ hasMemoryLimit c = false) ∧
      (∀ (j : Nat) (d : Container), j < k → limitThenRequest[j]? = some d →
        hasMemoryRequest d = true ∧ hasMemoryLimit d = true) ∧
      (ServeHTTP (sampleHandler limitThenRequest) okLib (.ok [])).review? =
        some (deniedReview "u1" expectedAdmissionReviewGVK
          (if hasMemoryRequest c = false then
            "Memory request not specified for container " ++ c.Name
          else
            "Memory limit not specified for container " ++ c.Name)) ∧
      ∀ later : List Container,
        validationLoop (limitThenRequest.take (k + 1) ++ later) =
          validationLoop limitThenRequest :=
  C3_only_first_offender_is_reported (sampleHandler limitThenRequest) okLib (.ok [])
    expectedAdmissionReviewGVK sampleRequest (mkDeployment limitThenRequest)
    ⟨[], sampleReview, expectedDeploymentGVK, rfl, rfl, rfl, rfl, rfl⟩
    ⟨mkContainer "b" [] [], by decide, Or.inl rfl⟩

/-! ## The review response (C4, C5, C6, C7) -/

/-- C4: when the call passes envelope decoding, the request-present check, the
resource-kind gate and workload decoding, and the workload has no containers,
the review response built has allowed = true and no result; when it serialises
and the write succeeds, that review is what `ServeHTTP` writes. -/
theorem C4_empty_workload_is_allowed (avh : admissionValidationHandler) (lib : Stdlib)
    (body : Except String Bytes) (gvk : GroupVersionKind) (req : AdmissionRequest)
    (dep : Deployment)
    (hreach : ReachesValidation avh body gvk req dep)
    (hempty : dep.Spec.Template.Spec.Containers = []) :
    (ServeHTTP avh lib body).review? =
        some { TypeMeta := gvk, Request := none,
               Response := some { UID := req.UID, Allowed := true, Result := none } } ∧
      ∀ respBytes : Bytes,
        lib.jsonMarshal (allowedReview req.UID gvk) = .ok respBytes →
        lib.write respBytes = none →
        ServeHTTP avh lib body = .written (allowedReview req.UID gvk) respBytes := by
  have hloop : validationLoop dep.Spec.Template.Spec.Containers = "" := by
    rw [hempty]; rfl
  constructor
  · rw [review?_of_reaches lib hreach, hloop, admissionReviewResponse_allowed]
    rfl
  · intro respBytes hm hw
    rw [ServeHTTP_of_reaches lib hreach, hloop, admissionReviewResponse_allowed]
    simp only [writeResponse, hm, hw]

/-- C4 on a deployment without containers. -/
theorem C4_empty_workload_is_allowed_witness :
    (ServeHTTP (sampleHandler []) okLib (.ok [])).review? =
        some { TypeMeta := expectedAdmissionReviewGVK, Request := none,
               Response := some { UID := "u1", Allowed := true, Result := none } } ∧
      ∀ respBytes : Bytes,
        okLib.jsonMarshal (allowedReview "u1" expectedAdmissionReviewGVK) = .ok respBytes →
        okLib.write respBytes = none →
        ServeHTTP (sampleHandler []) okLib (.ok []) =
          .written (allowedReview "u1" expectedAdmissionReviewGVK) respBytes :=
  C4_empty_workload_is_allowed (sampleHandler []) okLib (.ok []) expectedAdmissionReviewGVK
    sampleRequest (mkDeployment [])
    ⟨[], sampleReview, expectedDeploymentGVK, rfl, rfl, rfl, rfl, rfl⟩ rfl

/-- C5: every review response built by `ServeHTTP` comes from a call that
reached the validation loop with some workload. If the loop's message is empty
(the verdict is Allowed) the response has allowed = true and no result; if it is
a non-empty reason (the verdict is Denied) the response has allowed = false and a
result with status "Failure" and that reason as message. Hence the result is
present exactly when allowed is false. -/
theorem C5_result_present_iff_denied (avh : admissionValidationHandler) (lib : Stdlib)
    (body : Except String Bytes) (rv : AdmissionReview)
    (h : (ServeHTTP avh lib body).review? = some rv) :
    ∃ (gvk : GroupVersionKind) (req : AdmissionRequest) (dep : Deployment)
      (resp : AdmissionResponse),
      ReachesValidation avh body gvk req dep ∧
      rv.Response = some resp ∧
      (validationLoop dep.Spec.Template.Spec.Containers = "" →
        resp.Allowed = true ∧ resp.Result = none) ∧
      (validationLoop dep.Spec.Template.Spec.Containers ≠ "" →
        resp.Allowed = false ∧
        resp.Result = some { Status := "Failure",
                             Message := validationLoop dep.Spec.Template.Spec.Containers }) ∧
      (resp.Result.isSome = true ↔ resp.Allowed = false) := by
  obtain ⟨gvk, req, dep, hreach, hrv⟩ := reaches_of_review? h
  by_cases hm : validationLoop dep.Spec.Template.Spec.Containers = ""
  · rw [hm, admissionReviewResponse_allowed] at hrv
    subst hrv
    exact ⟨gvk, req, dep, _, hreach, rfl, fun _ => ⟨rfl, rfl⟩, fun hne => absurd hm hne,
      by simp⟩
  · rw [admissionReviewResponse_denied _ _ hm] at hrv
    subst hrv
    exact ⟨gvk, req, dep, _, hreach, rfl, fun he => absurd he hm, fun _ => ⟨rfl, rfl⟩,
      by simp⟩

/-- C5 on the denial of `limitMissingFirst`. -/
theorem C5_result_present_iff_denied_witness :
    ∃ (gvk : GroupVersionKind) (req : AdmissionRequest) (dep : Deployment)
      (resp : AdmissionResponse),
      ReachesValidation (sampleHandler limitMissingFirst) (.ok []) gvk req dep ∧
      (deniedReview "u1" expectedAdmissionReviewGVK
        "Memory limit not specified for container a").Response = some resp ∧
      (validationLoop dep.Spec.Template.Spec.Containers = "" →
        resp.Allowed = true ∧ resp.Result = none) ∧
      (validationLoop dep.Spec.Template.Spec.Containers ≠ "" →
        resp.Allowed = false ∧
        resp.Result = some { Status := "Failure",
                             Message := validationLoop dep.Spec.Template.Spec.Containers }) ∧
      (resp.Result.isSome = true ↔ resp.Allowed = false) :=
  C5_result_present_iff_denied (sampleHandler limitMissingFirst) okLib (.ok [])
    (deniedReview "u1" expectedAdmissionReviewGVK "Memory limit not specified for container a")
    (by decide)

/-- C6: whenever `ServeHTTP` builds a review response, the inbound envelope
decoded by the handler carries a request and the uid of the response equals the
uid of that request. -/
theorem C6_uid_is_echoed (avh : admissionValidationHandler) (lib : Stdlib)
    (body : Except String Bytes) (rv : AdmissionReview)
    (h : (ServeHTTP avh lib body).review? = some rv) :
    ∃ (requestBody : Bytes) (req : AdmissionRequest) (resp : AdmissionResponse),
      body = .ok requestBody ∧
      (avh.schemeDecoder.intoAdmissionReview requestBody).into.Request = some req ∧
      rv.Response = some resp ∧
      resp.UID = req.UID := by
  obtain ⟨gvk, req, dep, hreach, hrv⟩ := reaches_of_review? h
  obtain ⟨requestBody, review, g, hb, h1, h2, _, _⟩ := hreach
  have hinto := decodeRequest_fst avh.schemeDecoder.intoAdmissionReview requestBody
    expectedAdmissionReviewGVK
  rw [h1] at hinto
  simp only at hinto
  subst hrv
  refine ⟨requestBody, req, _, hb, ?_, rfl, ?_⟩
  · rw [← hinto]; exact h2
  · simp only [admissionReviewResponse]
    split <;> rfl

/-- C6 on the denial of `limitMissingFirst`: the uid "u1" of the request comes
back. -/
theorem C6_uid_is_echoed_witness :
    ∃ (requestBody : Bytes) (req : AdmissionRequest) (resp : AdmissionResponse),
      (Except.ok [] : Except String Bytes) = .ok requestBody ∧
      ((sampleHandler limitMissingFirst).schemeDecoder.intoAdmissionReview
        requestBody).into.Request = some req ∧
      (deniedReview "u1" expectedAdmissionReviewGVK
        "Memory limit not specified for container a").Response = some resp ∧
      resp.UID = req.UID :=
  C6_uid_is_echoed (sampleHandler limitMissingFirst) okLib (.ok [])
    (deniedReview "u1" expectedAdmissionReviewGVK "Memory limit not specified for container a")
    (by decide)

/-- C7: whenever `ServeHTTP` builds a review response, its schema identity is
the one the decoder reported for the inbound envelope, which is the identity
`decodeRequest` returned for it. -/
theorem C7_schema_identity_is_echoed (avh : admissionValidationHandler) (lib : Stdlib)
    (body : Except String Bytes) (rv : AdmissionReview)
    (h : (ServeHTTP avh lib body).review? = some rv) :
    ∃ (requestBody : Bytes) (g : GroupVersionKind),
      body = .ok requestBody ∧
      (avh.schemeDecoder.intoAdmissionReview requestBody).gvk = some g ∧
      (decodeRequest avh.schemeDecoder.intoAdmissionReview requestBody
        expectedAdmissionReviewGVK).2 = .ok g ∧
      rv.TypeMeta = g := by
  obtain ⟨gvk, req, dep, hreach, hrv⟩ := reaches_of_review? h
  obtain ⟨requestBody, review, g, hb, h1, _, _, _⟩ := hreach
  have h2 : (decodeRequest avh.schemeDecoder.intoAdmissionReview requestBody
      expectedAdmissionReviewGVK).2 = .ok gvk := by rw [h1]
  subst hrv
  exact ⟨requestBody, gvk, hb, ((decodeRequest_ok_iff _ _ _ _).mp h2).2.1, h2, rfl⟩

/-- C7 on the admission of an empty deployment: the response carries the
identity of the inbound envelope. -/
theorem C7_schema_identity_is_echoed_witness :
    ∃ (requestBody : Bytes) (g : GroupVersionKind),
      (Except.ok [] : Except String Bytes) = .ok requestBody ∧
      ((sampleHandler []).schemeDecoder.intoAdmissionReview requestBody).gvk = some g ∧
      (decodeRequest (sampleHandler []).schemeDecoder.intoAdmissionReview requestBody
        expectedAdmissionReviewGVK).2 = .ok g ∧
      (allowedReview "u1" expectedAdmissionReviewGVK).TypeMeta = g :=
  C7_schema_identity_is_echoed (sampleHandler []) okLib (.ok [])
    (allowedReview "u1" expectedAdmissionReviewGVK) (by decide)

/-! ## decodeRequest (C8, C9) -/

/-- C8: `decodeRequest` succeeds exactly when the decoder succeeds, reports an
identity, and that identity agrees with the expected one in group, version and
kind. On success the identity returned is the expected one. It fails with the
decoder's error when the decoder fails, and it fails when the identity is absent
and when the group, the version or the kind differs. -/
theorem C8_decodeRequest_succeeds_iff {α : Type} (schemeDecoder : Bytes → DecodeResult α)
    (request : Bytes) (expectedGVK : GroupVersionKind) :
    ((∃ g, (decodeRequest schemeDecoder request expectedGVK).2 = .ok g) ↔
        ((schemeDecoder request).err = none ∧
          ∃ g, (schemeDecoder request).gvk = some g ∧ g.Group = expectedGVK.Group ∧
            g.Version = expectedGVK.Version ∧ g.Kind = expectedGVK.Kind)) ∧
      (∀ g, (decodeRequest schemeDecoder request expectedGVK).2 = .ok g → g = expectedGVK) ∧
      (∀ e, (schemeDecoder request).err = some e →
        (decodeRequest schemeDecoder request expectedGVK).2 = .error e) ∧
      ((schemeDecoder request).err = none → (schemeDecoder request).gvk = none →
        ∃ e, (decodeRequest schemeDecoder request expectedGVK).2 = .error e) ∧
      (∀ g, (schemeDecoder request).err = none → (schemeDecoder request).gvk = some g →
        (g.Group ≠ expectedGVK.Group ∨ g.Version ≠ expectedGVK.Version ∨
          g.Kind ≠ expectedGVK.Kind) →
        ∃ e, (decodeRequest schemeDecoder request expectedGVK).2 = .error e) := by
  have hext : ∀ g : GroupVersionKind, (g.Group = expectedGVK.Group ∧
      g.Version = expectedGVK.Version ∧ g.Kind = expectedGVK.Kind) ↔ g = expectedGVK := by
    intro g
    constructor
    · rintro ⟨h1, h2, h3⟩
      cases g
      cases expectedGVK
      simp only at h1 h2 h3
      subst h1 h2 h3
      rfl
    · intro h
      subst h
      exact ⟨rfl, rfl, rfl⟩
  refine ⟨?_, ?_, ?_, ?_, ?_⟩
  · constructor
    · rintro ⟨g, hg⟩
      obtain ⟨h1, h2, h3⟩ := (decodeRequest_ok_iff _ _ _ _).mp hg
      exact ⟨h1, g, h2, (hext g).mpr h3⟩
    · rintro ⟨h1, g, h2, h3⟩
      exact ⟨g, (decodeRequest_ok_iff _ _ _ _).mpr ⟨h1, h2, (hext g).mp h3⟩⟩
  · intro g hg
    exact ((decodeRequest_ok_iff _ _ _ _).mp hg).2.2
  · intro e he
    rw [decodeRequest_of_err _ _ _ he]
  · intro herr hgvk
    rw [decodeRequest_of_nil _ _ _ herr hgvk]
    exact ⟨_, rfl⟩
  · intro g herr hgvk hne
    have hg : g ≠ expectedGVK := by
      intro h
      have := (hext g).mpr h
      rcases hne with h1 | h1 | h1
      · exact h1 this.1
      · exact h1 this.2.1
      · exact h1 this.2.2
    rw [decodeRequest_of_ne _ _ _ herr hgvk hg]
    exact ⟨_, rfl⟩

/-- C9, as stated, fails: `failingPodDecoder` reports the identity `podGVK`,
present and different from the expected one, together with an error;
`decodeRequest` returns that error (lines 28-30) before it reads the identity,
and its message does not contain the expected kind "AdmissionReview". -/
theorem C9_counterexample_decoder_error_comes_first :
    (failingPodDecoder []).gvk = some podGVK ∧
      podGVK ≠ expectedAdmissionReviewGVK ∧
      (decodeRequest failingPodDecoder [] expectedAdmissionReviewGVK).2 =
        .error "no kind Pod is registered for version admission.k8s.io/v1" ∧
      ¬ mentions "no kind Pod is registered for version admission.k8s.io/v1"
        expectedAdmissionReviewGVK.Kind :=
  ⟨rfl, by decide, rfl, by decide⟩

/-- C9, amended: when the decoder reports no error and an identity that differs
from the expected one, `decodeRequest` fails with the message of lines 36-37, and
that message contains the expected group, version and kind and the actual group,
version and kind. -/
theorem C9_mismatch_error_names_both_identities {α : Type}
    (schemeDecoder : Bytes → DecodeResult α) (request : Bytes)
    (expectedGVK requestGVK : GroupVersionKind)
    (herr : (schemeDecoder request).err = none)
    (hgvk : (schemeDecoder request).gvk = some requestGVK)
    (hne : requestGVK ≠ expectedGVK) :
    ∃ msg, (decodeRequest schemeDecoder request expectedGVK).2 = .error msg ∧
      msg = "Expected admission review with group: " ++ expectedGVK.Group ++ " version: " ++
        expectedGVK.Version ++ " kind: " ++ expectedGVK.Kind ++ " \nbut got group: " ++
        requestGVK.Group ++ " version: " ++ requestGVK.Version ++ " kind: " ++
        requestGVK.Kind ∧
      mentions msg expectedGVK.Group ∧ mentions msg expectedGVK.Version ∧
      mentions msg expectedGVK.Kind ∧ mentions msg requestGVK.Group ∧
      mentions msg requestGVK.Version ∧ mentions msg requestGVK.Kind := by
  refine ⟨mismatchMessage expectedGVK requestGVK, ?_, rfl, ?_, ?_, ?_, ?_, ?_, ?_⟩
  · rw [decodeRequest_of_ne _ _ _ herr hgvk hne]
  all_goals
    unfold mismatchMessage
    repeat first
      | exact mentions_append_self _ _
      | apply mentions_append_left

/-- C9, amended, on an envelope that declares kind "ListOptions": the error
names "AdmissionReview" and "ListOptions". -/
theorem C9_mismatch_error_names_both_identities_witness :
    ∃ msg, (decodeRequest listOptionsDecoder [] expectedAdmissionReviewGVK).2 = .error msg ∧
      msg = "Expected admission review with group: " ++ expectedAdmissionReviewGVK.Group ++
        " version: " ++ expectedAdmissionReviewGVK.Version ++ " kind: " ++
        expectedAdmissionReviewGVK.Kind ++ " \nbut got group: " ++
        listOptionsGVK.Group ++ " version: " ++ listOptionsGVK.Version ++ " kind: " ++
        listOptionsGVK.Kind ∧
      mentions msg expectedAdmissionReviewGVK.Group ∧
      mentions msg expectedAdmissionReviewGVK.Version ∧
      mentions msg expectedAdmissionReviewGVK.Kind ∧
      mentions msg listOptionsGVK.Group ∧ mentions msg listOptionsGVK.Version ∧
      mentions msg listOptionsGVK.Kind :=
  C9_mismatch_error_names_both_identities listOptionsDecoder [] expectedAdmissionReviewGVK
    listOptionsGVK rfl rfl (by decide)

/-! ## The resource-kind gate (C10) -/

/-- C10, as stated, fails: two request bodies that the handler decodes to
requests for apps/v1/pods differing only in the bytes of the embedded object get
status 400 both, but different outcomes, because the error body renders the
whole request, embedded bytes included. -/
theorem C10_counterexample_body_echoes_object_bytes :
    (podsRequest [1]).Resource ≠ deploymentGVR ∧
      (podsRequest [1]).UID = (podsRequest [2]).UID ∧
      (podsRequest [1]).Resource = (podsRequest [2]).Resource ∧
      ServeHTTP { schemeDecoder := podsDecoder } renderLib (.ok [1]) =
        .httpError ("Expected apps/v1/deployments resource but got " ++
          renderRequest (podsRequest [1])) 400 ∧
      ServeHTTP { schemeDecoder := podsDecoder } renderLib (.ok [2]) =
        .httpError ("Expected apps/v1/deployments resource but got " ++
          renderRequest (podsRequest [2])) 400 ∧
      ServeHTTP { schemeDecoder := podsDecoder } renderLib (.ok [1]) ≠
        ServeHTTP { schemeDecoder := podsDecoder } renderLib (.ok [2]) := by
  decide

/-- C10, amended: when the outer envelope decodes with the admission review
identity and carries a request whose resource triple differs from
(apps, v1, deployments) in some component, `ServeHTTP` answers with status 400
and the body "Expected apps/v1/deployments resource but got " followed by the
rendering of the request, builds no review response, and never decodes the
embedded object: the outcome is the same whatever the decoder would do with a
deployment. -/
theorem C10_resource_gate_rejects_without_decoding (avh : admissionValidationHandler)
    (lib : Stdlib) (requestBody : Bytes) (admissionReview : AdmissionReview)
    (gvk : GroupVersionKind) (req : AdmissionRequest)
    (hdecode : decodeRequest avh.schemeDecoder.intoAdmissionReview requestBody
      expectedAdmissionReviewGVK = (admissionReview, .ok gvk))
    (hrequest : admissionReview.Request = some req)
    (hne : req.Resource.Group ≠ "apps" ∨ req.Resource.Version ≠ "v1" ∨
      req.Resource.Resource ≠ "deployments") :
    ServeHTTP avh lib (.ok requestBody) =
        .httpError ("Expected apps/v1/deployments resource but got " ++
          lib.sprintfPlusV req) 400 ∧
      (ServeHTTP avh lib (.ok requestBody)).review? = none ∧
      ∀ other : Bytes → DecodeResult Deployment,
        ServeHTTP { schemeDecoder := { intoAdmissionReview :=
            avh.schemeDecoder.intoAdmissionReview, intoDeployment := other } } lib
          (.ok requestBody) = ServeHTTP avh lib (.ok requestBody) := by
  have hres : req.Resource ≠ deploymentGVR := by
    intro h
    rw [h] at hne
    revert hne
    decide
  have hout : ∀ avh2 : admissionValidationHandler,
      avh2.schemeDecoder.intoAdmissionReview = avh.schemeDecoder.intoAdmissionReview →
      ServeHTTP avh2 lib (.ok requestBody) =
        .httpError ("Expected apps/v1/deployments resource but got " ++
          lib.sprintfPlusV req) 400 := by
    intro avh2 h2
    simp only [ServeHTTP, h2, hdecode, hrequest, hres, ne_eq, not_false_eq_true, if_true]
  refine ⟨hout avh rfl, ?_, ?_⟩
  · rw [hout avh rfl]
    rfl
  · intro other
    rw [hout avh rfl]
    exact hout { schemeDecoder := { intoAdmissionReview :=
      avh.schemeDecoder.intoAdmissionReview, intoDeployment := other } } rfl

/-- C10, amended, on a request for pods: status 400 and no review response. -/
theorem C10_resource_gate_rejects_without_decoding_witness :
    ServeHTTP { schemeDecoder := podsDecoder } okLib (.ok [7]) =
        .httpError ("Expected apps/v1/deployments resource but got " ++
          okLib.sprintfPlusV (podsRequest [7])) 400 ∧
      (ServeHTTP { schemeDecoder := podsDecoder } okLib (.ok [7])).review? = none ∧
      ∀ other : Bytes → DecodeResult Deployment,
        ServeHTTP { schemeDecoder := { intoAdmissionReview :=
            podsDecoder.intoAdmissionReview, intoDeployment := other } } okLib
          (.ok [7]) = ServeHTTP { schemeDecoder := podsDecoder } okLib (.ok [7]) :=
  C10_resource_gate_rejects_without_decoding { schemeDecoder := podsDecoder } okLib [7]
    { TypeMeta := expectedAdmissionReviewGVK, Request := some (podsRequest [7]),
      Response := none }
    expectedAdmissionReviewGVK (podsRequest [7]) rfl rfl (Or.inr (Or.inr (by decide)))

/-- The loop ends with the empty message exactly when every container has both
entries. -/
theorem validationLoop_eq_empty_iff (cs : List Container) :
    validationLoop cs = "" ↔
      ∀ d ∈ cs, hasMemoryRequest d = true ∧ hasMemoryLimit d = true := by
  induction cs with
  | nil => simp [validationLoop]
  | cons x xs ih =>
    cases hr : hasMemoryRequest x with
    | false =>
      rw [validationLoop_cons_noRequest x xs hr]
      constructor
      · intro h
        exact absurd h (request_message_ne_empty x.Name)
      · intro h
        have := (h x (List.mem_cons_self x xs)).1
        rw [hr] at this
        cases this
    | true =>
      cases hl : hasMemoryLimit x with
      | false =>
        rw [validationLoop_cons_noLimit x xs hr hl]
        constructor
        · intro h
          exact absurd h (limit_message_ne_empty x.Name)
        · intro h
          have := (h x (List.mem_cons_self x xs)).2
          rw [hl] at this
          cases this
      | true =>
        rw [validationLoop_cons_ok x xs hr hl, ih]
        constructor
        · intro h d hd
          rcases List.mem_cons.mp hd with hd | hd
          · subst hd
            exact ⟨hr, hl⟩
          · exact h d hd
        · intro h d hd
          exact h d (List.mem_cons_of_mem x hd)

/-- The loop's message is a function of the containers' profiles. -/
theorem validationLoop_congr_profile (cs₁ cs₂ : List Container)
    (h : cs₁.map memoryProfile = cs₂.map memoryProfile) :
    validationLoop cs₁ = validationLoop cs₂ := by
  induction cs₁ generalizing cs₂ with
  | nil =>
    cases cs₂ with
    | nil => rfl
    | cons y ys => simp at h
  | cons x xs ih =>
    cases cs₂ with
    | nil => simp at h
    | cons y ys =>
      simp only [List.map_cons, List.cons.injEq, memoryProfile, Prod.mk.injEq] at h
      obtain ⟨⟨hn, hr, hl⟩, htail⟩ := h
      cases hrx : hasMemoryRequest x with
      | false =>
        rw [validationLoop_cons_noRequest x xs hrx,
          validationLoop_cons_noRequest y ys (hr ▸ hrx), hn]
      | true =>
        cases hlx : hasMemoryLimit x with
        | false =>
          rw [validationLoop_cons_noLimit x xs hrx hlx,
            validationLoop_cons_noLimit y ys (hr ▸ hrx) (hl ▸ hlx), hn]
        | true =>
          rw [validationLoop_cons_ok x xs hrx hlx,
            validationLoop_cons_ok y ys (hr ▸ hrx) (hl ▸ hlx)]
          exact ih ys htail

/-- The response part of the review built from the loop's message. -/
theorem admissionReviewResponse_Response (uid : String) (gvk : GroupVersionKind)
    (message : String) :
    (admissionReviewResponse uid gvk message).Response =
      some { UID := uid, Allowed := decide (message = ""),
             Result := if message = "" then none
                       else some { Status := "Failure", Message := message } } := by
  by_cases h : message = ""
  · subst h
    rw [admissionReviewResponse_allowed]
    rfl
  · rw [admissionReviewResponse_denied _ _ h]
    simp [deniedReview, h]

/-! ## Status codes and failure stages (C11, C12, C13) -/

/-- C11: when the call passes envelope decoding, the request-present check, the
resource-kind gate and workload decoding, and the review response serialises,
the status is 200 and not a 4xx or 5xx code, whether the loop's message is empty
(allow) or not (deny); the payload handed to the writer is the serialisation of
the review, whose allowed field is true exactly when the loop found no
violation; when the write succeeds the outcome is that written review. -/
theorem C11_allow_and_deny_are_answered_200 (avh : admissionValidationHandler) (lib : Stdlib)
    (body : Except String Bytes) (gvk : GroupVersionKind) (req : AdmissionRequest)
    (dep : Deployment) (respBytes : Bytes)
    (hreach : ReachesValidation avh body gvk req dep)
    (hserial : lib.jsonMarshal (admissionReviewResponse req.UID gvk
      (validationLoop dep.Spec.Template.Spec.Containers)) = .ok respBytes) :
    (ServeHTTP avh lib body).statusCode = 200 ∧
      ¬ 400 ≤ (ServeHTTP avh lib body).statusCode ∧
      (ServeHTTP avh lib body).payload? = some respBytes ∧
      ∃ (rv : AdmissionReview) (resp : AdmissionResponse),
        (ServeHTTP avh lib body).review? = some rv ∧
        lib.jsonMarshal rv = .ok respBytes ∧
        rv.Response = some resp ∧
        (resp.Allowed = true ↔ validationLoop dep.Spec.Template.Spec.Containers = "") ∧
        (lib.write respBytes = none → ServeHTTP avh lib body = .written rv respBytes) := by
  have hout : ServeHTTP avh lib body = .written
        (admissionReviewResponse req.UID gvk
          (validationLoop dep.Spec.Template.Spec.Containers)) respBytes ∨
      ∃ e, ServeHTTP avh lib body = .writeFailed
        (admissionReviewResponse req.UID gvk
          (validationLoop dep.Spec.Template.Spec.Containers)) respBytes e := by
    rw [ServeHTTP_of_reaches lib hreach]
    simp only [writeResponse, hserial]
    cases hw : lib.write respBytes with
    | none => exact Or.inl rfl
    | some e => exact Or.inr ⟨e, rfl⟩
  have hstatus : (ServeHTTP avh lib body).statusCode = 200 := by
    rcases hout with h | ⟨e, h⟩ <;> rw [h] <;> rfl
  have hpayload : (ServeHTTP avh lib body).payload? = some respBytes := by
    rcases hout with h | ⟨e, h⟩ <;> rw [h] <;> rfl
  refine ⟨hstatus, by rw [hstatus]; decide, hpayload, _, _, review?_of_reaches lib hreach,
    hserial, admissionReviewResponse_Response _ _ _, by simp, ?_⟩
  intro hw
  rw [ServeHTTP_of_reaches lib hreach]
  simp only [writeResponse, hserial, hw]

/-- C11 on the denial of `limitMissingFirst`: status 200 with allowed = false
in the review. -/
theorem C11_allow_and_deny_are_answered_200_witness :
    (ServeHTTP (sampleHandler limitMissingFirst) okLib (.ok [])).statusCode = 200 ∧
      ¬ 400 ≤ (ServeHTTP (sampleHandler limitMissingFirst) okLib (.ok [])).statusCode ∧
      (ServeHTTP (sampleHandler limitMissingFirst) okLib (.ok [])).payload? = some [] ∧
      ∃ (rv : AdmissionReview) (resp : AdmissionResponse),
        (ServeHTTP (sampleHandler limitMissingFirst) okLib (.ok [])).review? = some rv ∧
        okLib.jsonMarshal rv = .ok [] ∧
        rv.Response = some resp ∧
        (resp.Allowed = true ↔
          validationLoop (mkDeployment limitMissingFirst).Spec.Template.Spec.Containers = "") ∧
        (okLib.write [] = none →
          ServeHTTP (sampleHandler limitMissingFirst) okLib (.ok []) = .written rv []) :=
  C11_allow_and_deny_are_answered_200 (sampleHandler limitMissingFirst) okLib (.ok [])
    expectedAdmissionReviewGVK sampleRequest (mkDeployment limitMissingFirst) []
    ⟨[], sampleReview, expectedDeploymentGVK, rfl, rfl, rfl, rfl, rfl⟩ rfl

/-- C12, as stated, fails: the decoder of `failingPodHandler` reports for the
outer envelope the identity `podGVK`, different from the expected one, together
with an error; `ServeHTTP` answers with status 500 and the decoder's error as
body, which does not name the expected kind "AdmissionReview". -/
theorem C12_counterexample_decoder_error_is_the_body :
    (failingPodHandler.schemeDecoder.intoAdmissionReview []).gvk = some podGVK ∧
      podGVK ≠ expectedAdmissionReviewGVK ∧
      ServeHTTP failingPodHandler okLib (.ok []) =
        .httpError "no kind Pod is registered for version admission.k8s.io/v1" 500 ∧
      ¬ mentions "no kind Pod is registered for version admission.k8s.io/v1"
        "AdmissionReview" := by
  decide

/-- C12, amended: when the decoder reports no error on the request body and
reports for the outer envelope an identity other than
(admission.k8s.io, v1, AdmissionReview), `ServeHTTP` answers with status 500 and
the mismatch message, which contains the three expected and the three actual
components, and builds no review response. Nothing after the envelope decoding is
reached: the outcome is the same for every decoded envelope content, every
workload decoder and every library behaviour. -/
theorem C12_envelope_identity_mismatch_stops_with_500 (avh : admissionValidationHandler)
    (lib : Stdlib) (requestBody : Bytes) (g : GroupVersionKind)
    (herr : (avh.schemeDecoder.intoAdmissionReview requestBody).err = none)
    (hgvk : (avh.schemeDecoder.intoAdmissionReview requestBody).gvk = some g)
    (hne : g ≠ expectedAdmissionReviewGVK) :
    ServeHTTP avh lib (.ok requestBody) =
        .httpError (mismatchMessage expectedAdmissionReviewGVK g) 500 ∧
      (ServeHTTP avh lib (.ok requestBody)).statusCode = 500 ∧
      (ServeHTTP avh lib (.ok requestBody)).review? = none ∧
      mentions (mismatchMessage expectedAdmissionReviewGVK g) "admission.k8s.io" ∧
      mentions (mismatchMessage expectedAdmissionReviewGVK g) "v1" ∧
      mentions (mismatchMessage expectedAdmissionReviewGVK g) "AdmissionReview" ∧
      mentions (mismatchMessage expectedAdmissionReviewGVK g) g.Group ∧
      mentions (mismatchMessage expectedAdmissionReviewGVK g) g.Version ∧
      mentions (mismatchMessage expectedAdmissionReviewGVK g) g.Kind ∧
      ∀ (avh₂ : admissionValidationHandler) (lib₂ : Stdlib),
        (avh₂.schemeDecoder.intoAdmissionReview requestBody).err = none →
        (avh₂.schemeDecoder.intoAdmissionReview requestBody).gvk = some g →
        ServeHTTP avh₂ lib₂ (.ok requestBody) = ServeHTTP avh lib (.ok requestBody) := by
  have hout : ∀ (avh₂ : admissionValidationHandler) (lib₂ : Stdlib),
      (avh₂.schemeDecoder.intoAdmissionReview requestBody).err = none →
      (avh₂.schemeDecoder.intoAdmissionReview requestBody).gvk = some g →
      ServeHTTP avh₂ lib₂ (.ok requestBody) =
        .httpError (mismatchMessage expectedAdmissionReviewGVK g) 500 := by
    intro avh₂ lib₂ h1 h2
    simp only [ServeHTTP, decodeRequest_of_ne _ _ _ h1 h2 hne]
  have hgroup : mentions (mismatchMessage expectedAdmissionReviewGVK g)
      expectedAdmissionReviewGVK.Group := by
    unfold mismatchMessage
    repeat first
      | exact mentions_append_self _ _
      | apply mentions_append_left
  have hversion : mentions (mismatchMessage expectedAdmissionReviewGVK g)
      expectedAdmissionReviewGVK.Version := by
    unfold mismatchMessage
    repeat first
      | exact mentions_append_self _ _
      | apply mentions_append_left
  have hkind : mentions (mismatchMessage expectedAdmissionReviewGVK g)
      expectedAdmissionReviewGVK.Kind := by
    unfold mismatchMessage
    repeat first
      | exact mentions_append_self _ _
      | apply mentions_append_left
  refine ⟨hout avh lib herr hgvk, ?_, ?_, hgroup, hversion, hkind, ?_, ?_, ?_, ?_⟩
  · rw [hout avh lib herr hgvk]; rfl
  · rw [hout avh lib herr hgvk]; rfl
  · unfold mismatchMessage
    repeat first
      | exact mentions_append_self _ _
      | apply mentions_append_left
  · unfold mismatchMessage
    repeat first
      | exact mentions_append_self _ _
      | apply mentions_append_left
  · unfold mismatchMessage
    repeat first
      | exact mentions_append_self _ _
      | apply mentions_append_left
  · intro avh₂ lib₂ h1 h2
    rw [hout avh lib herr hgvk, hout avh₂ lib₂ h1 h2]

/-- C12, amended, on an envelope that the decoder reads without error as kind
"ListOptions". -/
theorem C12_envelope_identity_mismatch_stops_with_500_witness :
    ServeHTTP listOptionsHandler okLib (.ok []) =
        .httpError (mismatchMessage expectedAdmissionReviewGVK listOptionsGVK) 500 ∧
      (ServeHTTP listOptionsHandler okLib (.ok [])).statusCode = 500 ∧
      (ServeHTTP listOptionsHandler okLib (.ok [])).review? = none ∧
      mentions (mismatchMessage expectedAdmissionReviewGVK listOptionsGVK)
        "admission.k8s.io" ∧
      mentions (mismatchMessage expectedAdmissionReviewGVK listOptionsGVK) "v1" ∧
      mentions (mismatchMessage expectedAdmissionReviewGVK listOptionsGVK)
        "AdmissionReview" ∧
      mentions (mismatchMessage expectedAdmissionReviewGVK listOptionsGVK)
        listOptionsGVK.Group ∧
      mentions (mismatchMessage expectedAdmissionReviewGVK listOptionsGVK)
        listOptionsGVK.Version ∧
      mentions (mismatchMessage expectedAdmissionReviewGVK listOptionsGVK)
        listOptionsGVK.Kind ∧
      ∀ (avh₂ : admissionValidationHandler) (lib₂ : Stdlib),
        (avh₂.schemeDecoder.intoAdmissionReview []).err = none →
        (avh₂.schemeDecoder.intoAdmissionReview []).gvk = some listOptionsGVK →
        ServeHTTP avh₂ lib₂ (.ok []) = ServeHTTP listOptionsHandler okLib (.ok []) :=
  C12_envelope_identity_mismatch_stops_with_500 listOptionsHandler okLib [] listOptionsGVK
    rfl rfl (by decide)

/-- C13: when the outer envelope decodes with the admission review identity
and carries no request, `ServeHTTP` answers with status 500 and the message
"Expected admission review request but did not get one" and builds no review
response. The resource-kind gate, the workload decoding and the validation are
not reached: the outcome is the same for every workload decoder and every
library behaviour. -/
theorem C13_missing_request_stops_with_500 (avh : admissionValidationHandler) (lib : Stdlib)
    (requestBody : Bytes) (admissionReview : AdmissionReview) (gvk : GroupVersionKind)
    (hdecode : decodeRequest avh.schemeDecoder.intoAdmissionReview requestBody
      expectedAdmissionReviewGVK = (admissionReview, .ok gvk))
    (hnone : admissionReview.Request = none) :
    ServeHTTP avh lib (.ok requestBody) =
        .httpError "Expected admission review request but did not get one" 500 ∧
      (ServeHTTP avh lib (.ok requestBody)).statusCode = 500 ∧
      (ServeHTTP avh lib (.ok requestBody)).review? = none ∧
      ∀ (other : Bytes → DecodeResult Deployment) (lib₂ : Stdlib),
        ServeHTTP (withDeploymentDecoder avh other) lib₂ (.ok requestBody) =
          ServeHTTP avh lib (.ok requestBody) := by
  have hout : ∀ (avh₂ : admissionValidationHandler) (lib₂ : Stdlib),
      avh₂.schemeDecoder.intoAdmissionReview = avh.schemeDecoder.intoAdmissionReview →
      ServeHTTP avh₂ lib₂ (.ok requestBody) =
        .httpError "Expected admission review request but did not get one" 500 := by
    intro avh₂ lib₂ h2
    simp only [ServeHTTP, h2, hdecode, hnone]
  refine ⟨hout avh lib rfl, ?_, ?_, ?_⟩
  · rw [hout avh lib rfl]; rfl
  · rw [hout avh lib rfl]; rfl
  · intro other lib₂
    rw [hout avh lib rfl]
    exact hout (withDeploymentDecoder avh other) lib₂ rfl

/-- C13 on `emptyReview`, an envelope without request. -/
theorem C13_missing_request_stops_with_500_witness :
    ServeHTTP { schemeDecoder := constDecoder emptyReview (mkDeployment []) } okLib (.ok []) =
        .httpError "Expected admission review request but did not get one" 500 ∧
      (ServeHTTP { schemeDecoder := constDecoder emptyReview (mkDeployment []) } okLib
        (.ok [])).statusCode = 500 ∧
      (ServeHTTP { schemeDecoder := constDecoder emptyReview (mkDeployment []) } okLib
        (.ok [])).review? = none ∧
      ∀ (other : Bytes → DecodeResult Deployment) (lib₂ : Stdlib),
        ServeHTTP (withDeploymentDecoder
            { schemeDecoder := constDecoder emptyReview (mkDeployment []) } other) lib₂
          (.ok []) =
          ServeHTTP { schemeDecoder := constDecoder emptyReview (mkDeployment []) } okLib
            (.ok []) :=
  C13_missing_request_stops_with_500
    { schemeDecoder := constDecoder emptyReview (mkDeployment []) } okLib [] emptyReview
    expectedAdmissionReviewGVK rfl rfl

/-- The outcome when the write of an admission fails: the review was built and
handed to the writer, then the error was reported. -/
theorem ServeHTTP_write_failure_example :
    ServeHTTP (sampleHandler []) brokenPipeLib (.ok []) =
      .writeFailed (allowedReview "u1" expectedAdmissionReviewGVK) [1] "broken pipe" := by
  decide

/-! ## The verdict as a function of the workload (C14, C15) -/

/-- C14: when the call reaches the validation loop, the review response has
allowed = true exactly when every container has a "memory" entry in its requests
and in its limits. A container that lacks one of them makes the response a
denial whatever its name is, the empty name included: the loop's message is
then not the empty string. -/
theorem C14_allowed_iff_every_container_complete (avh : admissionValidationHandler)
    (lib : Stdlib) (body : Except String Bytes) (gvk : GroupVersionKind)
    (req : AdmissionRequest) (dep : Deployment)
    (hreach : ReachesValidation avh body gvk req dep) :
    ∃ (rv : AdmissionReview) (resp : AdmissionResponse),
      (ServeHTTP avh lib body).review? = some rv ∧
      rv.Response = some resp ∧
      (resp.Allowed = true ↔
        ∀ d ∈ dep.Spec.Template.Spec.Containers,
          hasMemoryRequest d = true ∧ hasMemoryLimit d = true) ∧
      ∀ d ∈ dep.Spec.Template.Spec.Containers,
        (hasMemoryRequest d = false ∨ hasMemoryLimit d = false) →
        validationLoop dep.Spec.Template.Spec.Containers ≠ "" ∧
        resp.Allowed = false ∧ resp.Result.isSome = true := by
  refine ⟨_, _, review?_of_reaches lib hreach, admissionReviewResponse_Response _ _ _, ?_, ?_⟩
  · simp only [decide_eq_true_eq]
    exact validationLoop_eq_empty_iff _
  · intro d hd hoff
    have hne : validationLoop dep.Spec.Template.Spec.Containers ≠ "" := by
      intro h
      have hall := (validationLoop_eq_empty_iff _).mp h d hd
      rcases hoff with h1 | h1
      · rw [hall.1] at h1; cases h1
      · rw [hall.2] at h1; cases h1
    refine ⟨hne, ?_, ?_⟩
    · simp [hne]
    · simp [hne]

/-- C14 on a workload whose only container has the empty name and no memory
entries: the response is a denial. -/
theorem C14_allowed_iff_every_container_complete_witness :
    ∃ (rv : AdmissionReview) (resp : AdmissionResponse),
      (ServeHTTP (sampleHandler namelessContainers) okLib (.ok [])).review? = some rv ∧
      rv.Response = some resp ∧
      (resp.Allowed = true ↔
        ∀ d ∈ (mkDeployment namelessContainers).Spec.Template.Spec.Containers,
          hasMemoryRequest d = true ∧ hasMemoryLimit d = true) ∧
      ∀ d ∈ (mkDeployment namelessContainers).Spec.Template.Spec.Containers,
        (hasMemoryRequest d = false ∨ hasMemoryLimit d = false) →
        validationLoop (mkDeployment namelessContainers).Spec.Template.Spec.Containers ≠ "" ∧
        resp.Allowed = false ∧ resp.Result.isSome = true :=
  C14_allowed_iff_every_container_complete (sampleHandler namelessContainers) okLib (.ok [])
    expectedAdmissionReviewGVK sampleRequest (mkDeployment namelessContainers)
    ⟨[], sampleReview, expectedDeploymentGVK, rfl, rfl, rfl, rfl, rfl⟩

/-- C15: two calls that reach the validation loop with workloads that agree,
container by container, on the name and on whether "memory" is a key of the
requests and of the limits, leave the loop with the same message and build
responses with the same allowed field and the same result, whatever the
quantities and the other resource entries are. -/
theorem C15_verdict_depends_only_on_names_and_memory_keys
    (avh₁ avh₂ : admissionValidationHandler) (lib₁ lib₂ : Stdlib)
    (body₁ body₂ : Except String Bytes) (gvk₁ gvk₂ : GroupVersionKind)
    (req₁ req₂ : AdmissionRequest) (dep₁ dep₂ : Deployment)
    (hreach₁ : ReachesValidation avh₁ body₁ gvk₁ req₁ dep₁)
    (hreach₂ : ReachesValidation avh₂ body₂ gvk₂ req₂ dep₂)
    (hagree : dep₁.Spec.Template.Spec.Containers.map memoryProfile =
      dep₂.Spec.Template.Spec.Containers.map memoryProfile) :
    validationLoop dep₁.Spec.Template.Spec.Containers =
        validationLoop dep₂.Spec.Template.Spec.Containers ∧
      ∃ (rv₁ rv₂ : AdmissionReview) (resp₁ resp₂ : AdmissionResponse),
        (ServeHTTP avh₁ lib₁ body₁).review? = some rv₁ ∧
        (ServeHTTP avh₂ lib₂ body₂).review? = some rv₂ ∧
        rv₁.Response = some resp₁ ∧ rv₂.Response = some resp₂ ∧
        resp₁.Allowed = resp₂.Allowed ∧ resp₁.Result = resp₂.Result := by
  have hloop := validationLoop_congr_profile _ _ hagree
  refine ⟨hloop, _, _, _, _, review?_of_reaches lib₁ hreach₁, review?_of_reaches lib₂ hreach₂,
    admissionReviewResponse_Response _ _ _, admissionReviewResponse_Response _ _ _, ?_, ?_⟩
  · simp only [hloop]
  · simp only [hloop]

/-- C15 on `zeroQuantities` and `otherQuantities`, which differ in quantities
and in extra entries only: both are denied for the limit of "a". -/
theorem C15_verdict_depends_only_on_names_and_memory_keys_witness :
    validationLoop (mkDeployment zeroQuantities).Spec.Template.Spec.Containers =
        validationLoop (mkDeployment otherQuantities).Spec.Template.Spec.Containers ∧
      ∃ (rv₁ rv₂ : AdmissionReview) (resp₁ resp₂ : AdmissionResponse),
        (ServeHTTP (sampleHandler zeroQuantities) okLib (.ok [])).review? = some rv₁ ∧
        (ServeHTTP (sampleHandler otherQuantities) brokenPipeLib (.ok [9])).review? =
          some rv₂ ∧
        rv₁.Response = some resp₁ ∧ rv₂.Response = some resp₂ ∧
        resp₁.Allowed = resp₂.Allowed ∧ resp₁.Result = resp₂.Result :=
  C15_verdict_depends_only_on_names_and_memory_keys (sampleHandler zeroQuantities)
    (sampleHandler otherQuantities) okLib brokenPipeLib (.ok []) (.ok [9])
    expectedAdmissionReviewGVK expectedAdmissionReviewGVK sampleRequest sampleRequest
    (mkDeployment zeroQuantities) (mkDeployment otherQuantities)
    ⟨[], sampleReview, expectedDeploymentGVK, rfl, rfl, rfl, rfl, rfl⟩
    ⟨[9], sampleReview, expectedDeploymentGVK, rfl, rfl, rfl, rfl, rfl⟩
    (by decide)

end AdmissionController
